import Mathlib

/-!
Shallow embedding of the audio-analysis scripts of the getsocialvideobot
repository (src/video-bot/scripts): analyze_audio.py, hume_analyze.py,
speaker_diarization.py and detect_gender.py.

External collaborators (HTTP transport via requests / the Hume SDK, librosa,
pydub, pyannote, the filesystem and the process environment) are modelled by
explicit inputs: each effectful call is represented by the value it returns or
the message of the exception it raises (`Except String`).  Python floats are
modelled as rationals, Python dicts with string keys as insertion-ordered
association lists, and a raised exception as the `.error` branch of `Except`.
-/

namespace Spec2Proof

/-- Python `a or b` for an optional string `a`: yields `b` when `a` is `None`
or the empty string (both falsy in Python), otherwise the string itself. -/
def strOr (a : Option String) (b : String) : String :=
  match a with
  | some s => if s = "" then b else s
  | none => b

/-- Python `k in d` for an insertion-ordered dict modelled as an association
list from speaker id to gender string. -/
def hasKey (d : List (String × String)) (k : String) : Bool :=
  d.any (fun kv => kv.1 == k)

/-- numpy `np.mean` over a list of rationals (the claims below never evaluate
it on an empty list without first checking emptiness, as the source does). -/
def mean (l : List ℚ) : ℚ := l.sum / l.length

/-- Python truthiness of an optional string: `False` for `None` and `""`. -/
def truthyStr (o : Option String) : Bool :=
  match o with
  | some s => s != ""
  | none => false

/-- Python `str.upper()`, embedded as a structural map over the character
list (the library `String.toUpper` is extensionally the same function but
its recursion does not reduce definitionally). -/
def strToUpper (s : String) : String := ⟨s.data.map Char.toUpper⟩

/-! ## analyze_audio.py -/

namespace AnalyzeAudio

/-- One element of `prediction["predictions"]`: a prosody chunk with its
`time.start` / `time.end` fields (absent keys are `none`) and its raw
`emotions` payload. -/
structure Chunk where
  timeStart : Option ℚ
  timeEnd : Option ℚ
  emotions : Option (List (String × ℚ))
deriving DecidableEq

/-- One element of `grouped_predictions`: the `speaker`, `track.id`,
`speaker_info.gender` and `speaker_info.sex` fields (absent keys are `none`),
plus the chunk list. -/
structure Prediction where
  speaker : Option String
  trackId : Option String
  gender : Option String
  sex : Option String
  predictions : List Chunk
deriving DecidableEq

/-- One element of `job["state"]["results"]`: its
`models.prosody.grouped_predictions` list (missing levels collapse to `[]`,
as the chained `.get(..., {})` calls do). -/
structure HumeResult where
  grouped_predictions : List Prediction
deriving DecidableEq

/-- The parsed job JSON: `state.status` and `state.results` (a `None` or
missing results list is modelled as `[]`, matching `... or []`). -/
structure Job where
  status : Option String
  results : List HumeResult
deriving DecidableEq

/-- A segment dict built by `_extract_results`. -/
structure Segment where
  speaker : String
  start : ℚ
  stop : ℚ
  type : String
  emotions : Option (List (String × ℚ))
deriving DecidableEq

/-- Python `round(x, 3)`.  (CPython uses round-half-even on binary floats;
the tie-breaking mode is immaterial to every claim below.) -/
def round3 (x : ℚ) : ℚ := (round (x * 1000) : ℚ) / 1000

/-- `speaker_id = prediction.get("speaker")` followed by
`if not speaker_id: speaker_id = prediction.get("track", {}).get("id") or "unknown"`. -/
def speakerIdOf (p : Prediction) : String :=
  match p.speaker with
  | some s => if s = "" then strOr p.trackId "unknown" else s
  | none => strOr p.trackId "unknown"

/-- `gender = speaker_info.get("gender") or speaker_info.get("sex") or "unknown"`. -/
def genderOf (p : Prediction) : String :=
  strOr p.gender (strOr p.sex "unknown")

/-- The inner `for chunk in prediction.get("predictions", [])` loop: chunks
missing a start or an end are skipped, the rest become speech segments with
start and end rounded to 3 decimals. -/
def chunkSegments (speaker_id : String) (cs : List Chunk) : List Segment :=
  cs.filterMap fun c =>
    match c.timeStart, c.timeEnd with
    | some s, some e => some ⟨speaker_id, round3 s, round3 e, "speech", c.emotions⟩
    | _, _ => none

/-- One iteration of the `for prediction in prosody_predictions` loop over the
accumulated `(speakers, segments)` state: the speaker is added to `speakers`
only when not yet present, and the prediction's chunks are appended to
`segments`. -/
def addPrediction (acc : List (String × String) × List Segment) (p : Prediction) :
    List (String × String) × List Segment :=
  let sid := speakerIdOf p
  let speakers := if hasKey acc.1 sid then acc.1 else acc.1 ++ [(sid, genderOf p)]
  (speakers, acc.2 ++ chunkSegments sid p.predictions)

/-- The double loop of `_extract_results` over results and their grouped
predictions, starting from empty `speakers` and `segments`. -/
def collectJob (results : List HumeResult) : List (String × String) × List Segment :=
  results.foldl (fun acc r => r.grouped_predictions.foldl addPrediction acc) ([], [])

/-- Comparison used by `segments.sort(key=lambda s: s["start"])`. -/
def segLE (a b : Segment) : Prop := a.start ≤ b.start

instance : DecidableRel segLE := fun a b => inferInstanceAs (Decidable (a.start ≤ b.start))

instance : IsTotal Segment segLE := ⟨fun a b => le_total a.start b.start⟩

instance : IsTrans Segment segLE := ⟨fun _ _ _ hab hbc => le_trans hab hbc⟩

/-- `segments.sort(key=lambda s: s["start"])`: Python's `list.sort` is a
stable sort by key, and any stable sort by the same key produces the same
list, so it is embedded as a stable insertion sort. -/
def sortSegments (l : List Segment) : List Segment := l.insertionSort segLE

/-- The dict returned by `_extract_results` on success. -/
structure Extraction where
  speakers : List (String × String)
  segments : List Segment
deriving DecidableEq

/-- `_extract_results(job)`: raises when `state.results` is missing or empty,
otherwise collects speakers and segments and sorts the segments by start. -/
def _extract_results (job : Job) : Except String Extraction :=
  if job.results = [] then .error "Hume job missing results"
  else
    let acc := collectJob job.results
    .ok ⟨acc.1, sortSegments acc.2⟩

/-- The outcome of one `requests.get` status call: a parsed job JSON, or an
exception (transport error or a non-2xx status via `raise_for_status`). -/
inductive PollResp where
  | ok (job : Job)
  | raise (msg : String)

/-- How a run of `_poll_job` ends: `completed` is the normal return, the
other three are the raised exceptions (`RuntimeError` on FAILED/CANCELED,
`TimeoutError` on deadline, and a propagating transport error). -/
inductive PollResult where
  | completed (job : Job)
  | jobFailed (msg : String)
  | timedOut (msg : String)
  | transportError (msg : String)
deriving DecidableEq

def POLL_INTERVAL_SECONDS : ℚ := 5

def POLL_TIMEOUT_SECONDS : ℚ := 900

/-- The `while time.time() < deadline` loop of `_poll_job`.  `responses i` is
the outcome of the i-th status call, `now` the current clock (each iteration
advances it by the sleep interval), and `fuel` a structural bound that is
never exhausted for the concrete timeout/interval used by the script.  The
second component counts the status calls performed.  The Python failure
message also interpolates the job JSON; only its fixed part is kept here. -/
def pollAux (responses : ℕ → PollResp) (jobId : String) :
    ℕ → ℕ → ℚ → ℚ → ℚ → PollResult × ℕ
  | _, 0, _, _, _ => (.timedOut "fuel exhausted", 0)
  | i, fuel + 1, now, deadline, interval =>
    if now < deadline then
      match responses i with
      | .raise msg => (.transportError msg, i + 1)
      | .ok job =>
        if job.status = some "COMPLETED" then (.completed job, i + 1)
        else if job.status = some "FAILED" ∨ job.status = some "CANCELED" then
          (.jobFailed ("Hume job " ++ jobId ++ " failed"), i + 1)
        else pollAux responses jobId (i + 1) fuel (now + interval) deadline interval
    else (.timedOut ("Hume job " ++ jobId ++ " polling timed out after 900 seconds"), i)

/-- `_poll_job(job_id, api_key)` with the script's constants: deadline 900 s,
interval 5 s, so at most 180 iterations run and fuel 181 is never exhausted. -/
def _poll_job (responses : ℕ → PollResp) (jobId : String) : PollResult × ℕ :=
  pollAux responses jobId 0 181 0 POLL_TIMEOUT_SECONDS POLL_INTERVAL_SECONDS

/-- The dict returned by `analyze_audio`: on success `error` is absent
(`none`) and `debug` holds the submitted job id; on failure `speakers` and
`segments` are empty and `error` holds `str(exc)`. -/
structure AnalysisResult where
  speakers : List (String × String)
  segments : List Segment
  error : Option String
  debugJobId : Option String
deriving DecidableEq

/-- `_env("HUME_API_KEY")`: raises when the variable is unset or empty. -/
def _env (value : Option String) : Except String String :=
  match value with
  | some v => if v = "" then .error "Missing required environment variable: HUME_API_KEY" else .ok v
  | none => .error "Missing required environment variable: HUME_API_KEY"

/-- `analyze_audio(file_path)`.  `envKey` is the `HUME_API_KEY` environment
value, `fileExists` the `path.exists()` answer, `submitOutcome` the result of
`_submit_job` (a job id, or the message of whatever it raised), and
`responses` the status-call stream consumed by `_poll_job`.  Every exception
from any stage is caught by the single `except Exception` handler and turned
into an error result with empty speakers and segments; `debug` contains the
job id exactly when submission had already succeeded. -/
def analyze_audio (envKey : Option String) (fileExists : Bool)
    (submitOutcome : Except String String) (responses : ℕ → PollResp) : AnalysisResult :=
  match _env envKey with
  | .error msg => ⟨[], [], some msg, none⟩
  | .ok _ =>
    if fileExists then
      match submitOutcome with
      | .error msg => ⟨[], [], some msg, none⟩
      | .ok jobId =>
        match (_poll_job responses jobId).1 with
        | .completed job =>
          match _extract_results job with
          | .ok ex => ⟨ex.speakers, ex.segments, none, some jobId⟩
          | .error msg => ⟨[], [], some msg, some jobId⟩
        | .jobFailed msg => ⟨[], [], some msg, some jobId⟩
        | .timedOut msg => ⟨[], [], some msg, some jobId⟩
        | .transportError msg => ⟨[], [], some msg, some jobId⟩
    else ⟨[], [], some "Audio file does not exist", none⟩

/-- The `__main__` block of analyze_audio.py: with fewer than two argv
entries it prints a usage line and exits 1; otherwise it prints the JSON of
`analyze_audio(sys.argv[1])` and the process exits 0. -/
def analyze_audio_main (argv : List String) (envKey : Option String) (fileExists : Bool)
    (submitOutcome : Except String String) (responses : ℕ → PollResp) :
    ℕ × Option AnalysisResult :=
  if argv.length < 2 then (1, none)
  else (0, some (analyze_audio envKey fileExists submitOutcome responses))

end AnalyzeAudio

/-! ## hume_analyze.py -/

namespace HumeAnalyze

/-- A Python JSON-like value, the shape over which `_search_for_gender`
recurses (`result.model_dump(exclude_none=True)` produces such a value). -/
inductive PyVal where
  | str (s : String)
  | num (q : ℚ)
  | boolean (b : Bool)
  | null
  | list (items : List PyVal)
  | dict (entries : List (String × PyVal))

/-- `key.lower() in {"gender", "speaker_gender", "bio_gender"}`. -/
def isGenderKey (k : String) : Bool :=
  k.toLower == "gender" || k.toLower == "speaker_gender" || k.toLower == "bio_gender"

/-- The direct hit inside the dict branch: a string value whose lowering is
`male` or `female` yields that lowering, anything else yields nothing. -/
def genderFromStr (v : PyVal) : Option String :=
  match v with
  | .str s => if s.toLower == "male" || s.toLower == "female" then some s.toLower else none
  | _ => none

mutual

/-- `_search_for_gender(value)`: depth-first search for a recognised gender
key with a valid string value; first match wins. -/
def _search_for_gender : PyVal → Option String
  | .dict entries => searchEntries entries
  | .list items => searchItems items
  | _ => none

/-- The `for key, val in value.items()` loop: per entry the direct key check
runs first, then the recursive search on the value, then the rest. -/
def searchEntries : List (String × PyVal) → Option String
  | [] => none
  | (k, v) :: rest =>
    match (if isGenderKey k then genderFromStr v else none) with
    | some g => some g
    | none =>
      match _search_for_gender v with
      | some g => some g
      | none => searchEntries rest

/-- The `for item in value` loop of the list branch. -/
def searchItems : List PyVal → Option String
  | [] => none
  | v :: rest =>
    match _search_for_gender v with
    | some g => some g
    | none => searchItems rest

end

/-- `_infer_primary_gender(raw_sections)`: the first section with a hit wins,
otherwise `"unknown"`. -/
def _infer_primary_gender : List PyVal → String
  | [] => "unknown"
  | s :: rest =>
    match _search_for_gender s with
    | some g => g
    | none => _infer_primary_gender rest

/-- One `{name, score}` emotion entry. -/
structure Emotion where
  name : String
  score : ℚ
deriving DecidableEq

/-- One entry of `group.predictions`: its `time.begin` / `time.end`
attributes (`none` models a missing or `None` attribute), its text, and its
emotion list. -/
structure Entry where
  timeBegin : Option ℚ
  timeEnd : Option ℚ
  text : Option String
  emotions : List Emotion
deriving DecidableEq

/-- One element of `grouped_predictions`: its `id` attribute and entries. -/
structure Group where
  id : Option String
  predictions : List Entry
deriving DecidableEq

/-- The prosody model output: `grouped_predictions` may be absent (`None`). -/
structure Prosody where
  grouped_predictions : Option (List Group)
deriving DecidableEq

/-- `prediction.models`: the prosody field may be `None`. -/
structure PModels where
  prosody : Option Prosody
deriving DecidableEq

/-- One element of `result.results.predictions`. -/
structure InnerPrediction where
  models : Option PModels
deriving DecidableEq

/-- `result.results`: the inner predictions list. -/
structure ResultsBlock where
  predictions : List InnerPrediction
deriving DecidableEq

/-- One `UnionPredictResult`: its `error` field, its `results` block (absent
models a falsy `results`), and its `model_dump(exclude_none=True)` value as
scanned by the gender search. -/
structure PredictResult where
  error : Option String
  results : Option ResultsBlock
  dump : PyVal

/-- A segment dict built by `_collect_analysis`. -/
structure Segment where
  speaker : String
  start : ℚ
  stop : ℚ
  type : String
  text : String
  emotions : List Emotion
deriving DecidableEq

/-- One entry of `emotion_overview`. -/
structure EmotionPoint where
  speaker : String
  start : ℚ
  stop : ℚ
  dominantEmotion : String
  confidence : ℚ
deriving DecidableEq

/-- The mutable state threaded through the collection loops of
`_collect_analysis`. -/
structure CollectState where
  segments : List Segment
  transcript_parts : List String
  emotion_overview : List EmotionPoint
  first_speaker : Option String

/-- `max(emotions, key=lambda emo: emo["score"])`: Python `max` keeps the
first element among ties, so a later element replaces the current best only
when strictly greater. -/
def strongestEmotion (e : Emotion) (rest : List Emotion) : Emotion :=
  rest.foldl (fun best x => if best.score < x.score then x else best) e

/-- The body of `for entry in group.predictions`: start defaults to 0 for a
missing or falsy `time.begin`, end defaults to start for a missing or falsy
`time.end`, the segment is appended, non-empty text is stripped and
collected, and a non-empty emotion list contributes an overview entry. -/
def processEntry (speaker_id : String) (st : CollectState) (entry : Entry) : CollectState :=
  let s := entry.timeBegin.getD 0
  let e := match entry.timeEnd with
    | some x => if x = 0 then s else x
    | none => s
  let tx := entry.text.getD ""
  let segments := st.segments ++ [⟨speaker_id, s, e, "speech", tx, entry.emotions⟩]
  let transcript_parts := match entry.text with
    | some t => if t = "" then st.transcript_parts else st.transcript_parts ++ [t.trim]
    | none => st.transcript_parts
  let emotion_overview := match entry.emotions with
    | [] => st.emotion_overview
    | e0 :: rest =>
      let strongest := strongestEmotion e0 rest
      st.emotion_overview ++ [⟨speaker_id, s, e, strongest.name, strongest.score⟩]
  ⟨segments, transcript_parts, emotion_overview, st.first_speaker⟩

/-- The body of `for group in grouped`: the speaker id defaults to
`"speaker_0"` for a falsy `group.id`, and the first group seen fixes
`first_speaker`. -/
def processGroup (st : CollectState) (group : Group) : CollectState :=
  let speaker_id := strOr group.id "speaker_0"
  let st1 : CollectState :=
    if st.first_speaker = none then
      ⟨st.segments, st.transcript_parts, st.emotion_overview, some speaker_id⟩
    else st
  group.predictions.foldl (processEntry speaker_id) st1

/-- The body of `for prediction in result.results.predictions`: skipped when
`models` or `prosody` is falsy; a falsy `grouped_predictions` becomes `[]`. -/
def processInnerPrediction (st : CollectState) (p : InnerPrediction) : CollectState :=
  match p.models with
  | none => st
  | some m =>
    match m.prosody with
    | none => st
    | some pr => (pr.grouped_predictions.getD []).foldl processGroup st

/-- The body of `for result in predictions`: results with a truthy error or
a falsy results block are skipped (their dump is still collected separately). -/
def processPredictResult (st : CollectState) (r : PredictResult) : CollectState :=
  if truthyStr r.error then st
  else
    match r.results with
    | none => st
    | some rb => rb.predictions.foldl processInnerPrediction st

/-- The initial collection state: empty lists, no first speaker. -/
def initState : CollectState := ⟨[], [], [], none⟩

/-- Comparison used by `segments.sort(key=lambda item: item.get("start", 0.0))`. -/
def segLE (a b : Segment) : Prop := a.start ≤ b.start

instance : DecidableRel segLE := fun a b => inferInstanceAs (Decidable (a.start ≤ b.start))

instance : IsTotal Segment segLE := ⟨fun a b => le_total a.start b.start⟩

instance : IsTrans Segment segLE := ⟨fun _ _ _ hab hbc => le_trans hab hbc⟩

/-- The stable sort of `_collect_analysis` (see `AnalyzeAudio.sortSegments`). -/
def sortSegments (l : List Segment) : List Segment := l.insertionSort segLE

/-- The dict returned by `_collect_analysis`. -/
structure Analysis where
  duration : Option ℚ
  speakers : List (String × String)
  segments : List Segment
  transcript : String
  emotions : List EmotionPoint
  raw : List PyVal

/-- `_collect_analysis(predictions, duration)`: collect segments, transcript
parts and emotion overview; when no segment was collected, synthesise a
single whole-file speech segment for `first_speaker or "speaker_0"` ending at
`duration or 0.0`; sort segments by start; the single speakers entry maps the
primary speaker to the gender found by searching the raw dumps. -/
def _collect_analysis (predictions : List PredictResult) (duration : Option ℚ) : Analysis :=
  let raw_dump := predictions.map (fun r => r.dump)
  let st := predictions.foldl processPredictResult initState
  let segments :=
    if st.segments = [] then
      [⟨st.first_speaker.getD "speaker_0", 0, duration.getD 0, "speech", "", []⟩]
    else st.segments
  let segments := sortSegments segments
  let primary_speaker :=
    strOr st.first_speaker
      (match segments with
       | seg :: _ => seg.speaker
       | [] => "speaker_0")
  let gender := _infer_primary_gender raw_dump
  ⟨duration, [(primary_speaker, gender)], segments,
    (String.intercalate " " st.transcript_parts).trim, st.emotion_overview, raw_dump⟩

/-- The outcome of one `get_job_details` call: the job state's status string
(`getattr(job.state, "status", "")`) and message, or a raised `ApiError`. -/
inductive JobResp where
  | ok (status : String) (message : Option String)
  | raise (msg : String)

/-- How a run of `_wait_for_completion` ends: normal return on COMPLETED, an
`AnalysisError` on FAILED or on the deadline, or a propagating `ApiError`.
`fuelOut` is a modelling artifact that concrete runs below never reach. -/
inductive WaitResult where
  | completed
  | jobFailed (msg : String)
  | timedOut (msg : String)
  | apiError (msg : String)
  | fuelOut
deriving DecidableEq

/-- The `while True` loop of `_wait_for_completion`: poll first, check
COMPLETED, then FAILED, then the deadline, then sleep and repeat.  A CANCELED
status matches none of the terminal checks and simply loops.  The second
component counts the `get_job_details` calls performed. -/
def waitAux (responses : ℕ → JobResp) :
    ℕ → ℕ → ℚ → ℚ → ℚ → WaitResult × ℕ
  | i, 0, _, _, _ => (.fuelOut, i)
  | i, fuel + 1, now, deadline, poll =>
    match responses i with
    | .raise msg => (.apiError msg, i + 1)
    | .ok status message =>
      if strToUpper status = "COMPLETED" then (.completed, i + 1)
      else if strToUpper status = "FAILED" then
        (.jobFailed ("Hume job failed: " ++ message.getD "Unknown failure"), i + 1)
      else if deadline ≤ now then
        (.timedOut "Timed out waiting for Hume job to complete", i + 1)
      else waitAux responses (i + 1) fuel (now + poll) deadline poll

/-- Enough fuel to cover every iteration a run with the given timeout and
poll interval can perform before the deadline check fires. -/
def wait_fuel (timeout poll : ℚ) : ℕ :=
  if 0 < poll then (⌈timeout / poll⌉).toNat + 2 else 0

/-- `_wait_for_completion(client, job_id, timeout_seconds, poll_seconds)`
started at clock 0 with deadline `timeout`. -/
def _wait_for_completion (responses : ℕ → JobResp) (timeout poll : ℚ) : WaitResult × ℕ :=
  waitAux responses 0 (wait_fuel timeout poll) 0 timeout poll

/-- How `_run(audio_path)` ends, as observed by `main`'s handlers: a
successful analysis, an `AnalysisError`, an `ApiError`, or any other
exception. -/
inductive RunOutcome where
  | ok (a : Analysis)
  | analysisError (msg : String)
  | apiError (msg : String)
  | other (msg : String)

/-- What `main` prints to stdout: a usage error payload, an error payload, or
the serialized analysis. -/
inductive Printed where
  | usageError (msg : String)
  | errorPayload (msg : String)
  | analysisPayload (a : Analysis)

/-- `main(argv)`: exit 1 with a usage payload unless exactly one path
argument is given, exit 1 when the path is not a file, exit 2/3/4 with an
error payload for an `AnalysisError` / `ApiError` / any other exception from
`_run`, exit 0 with the analysis payload on success. -/
def main (argv : List String) (isFile : Bool) (run : RunOutcome) : ℕ × Printed :=
  if argv.length ≠ 2 then (1, .usageError "Usage: hume_analyze.py <path-to-audio>")
  else if isFile then
    match run with
    | .analysisError msg => (2, .errorPayload msg)
    | .apiError _ => (3, .errorPayload "Hume API error")
    | .other _ => (4, .errorPayload "Unexpected failure")
    | .ok a => (0, .analysisPayload a)
  else (1, .errorPayload "Audio file not found")

end HumeAnalyze

/-! ## speaker_diarization.py -/

namespace SpeakerDiarization

/-- One `(turn, _, speaker)` track yielded by the pyannote diarization
pipeline (an external collaborator): speaker label, start and end seconds. -/
structure Turn where
  speaker : String
  start : ℚ
  stop : ℚ
deriving DecidableEq

/-- A segment dict built by `analyze_with_pyannote` (it has no `type` key). -/
structure Segment where
  speaker : String
  start : ℚ
  stop : ℚ
deriving DecidableEq

/-- The dict returned by `analyze_with_pyannote` / `fallback_analysis`. -/
structure DiarizationResult where
  speakers : List (String × String)
  segments : List Segment
  error : Option String
deriving DecidableEq

/-- Python `round(x, 2)` (tie-breaking mode immaterial to the claims). -/
def round2 (x : ℚ) : ℚ := (round (x * 100) : ℚ) / 100

/-- `detect_gender_from_pitch(audio_segment, start_time, end_time)`.
`numSamples` is the length of the sliced sample array and `frame_rate` its
rate; `piptrack` is the outcome of the librosa pitch extraction on that slice
(an external collaborator), `.error` modelling any exception inside the
`try`, which the function maps to `"unknown"`.  The function branches only on
the extracted pitches: it never inspects the slice length. -/
def detect_gender_from_pitch (numSamples : ℕ) (frame_rate : ℕ)
    (piptrack : Except String (List ℚ)) : String :=
  match piptrack with
  | .error _ => "unknown"
  | .ok pitches =>
    let valid_pitches := pitches.filter (fun p => 0 < p)
    if valid_pitches = [] then "unknown"
    else if mean valid_pitches < 165 then "male" else "female"

/-- Comparison by segment start (the source never sorts with it; it is used
only to state the sortedness claims about this variant). -/
def segLE (a b : Segment) : Prop := a.start ≤ b.start

instance : DecidableRel segLE := fun a b => inferInstanceAs (Decidable (a.start ≤ b.start))

/-- The body of `for turn, _, speaker in diarization.itertracks(...)`: on a
speaker's first turn its gender is computed (via
`detect_gender_from_pitch(audio, start, end)`, abstracted here as `genderOf`
over the turn bounds) and recorded; the segment is appended with start and
end rounded to 2 decimals. -/
def addTurn (genderOf : ℚ → ℚ → String)
    (acc : List (String × String) × List Segment) (t : Turn) :
    List (String × String) × List Segment :=
  let speakers :=
    if hasKey acc.1 t.speaker then acc.1
    else acc.1 ++ [(t.speaker, genderOf t.start t.stop)]
  (speakers, acc.2 ++ [⟨t.speaker, round2 t.start, round2 t.stop⟩])

/-- `analyze_with_pyannote(audio_path)`: `diarization` is the pipeline
outcome (its turn list, or the message of whatever the try-block raised);
segments are emitted in track order and never sorted. -/
def analyze_with_pyannote (diarization : Except String (List Turn))
    (genderOf : ℚ → ℚ → String) : DiarizationResult :=
  match diarization with
  | .error e => ⟨[], [], some ("pyannote analysis failed: " ++ e)⟩
  | .ok turns =>
    let acc := turns.foldl (addTurn genderOf) ([], [])
    ⟨acc.1, acc.2, none⟩

/-- `fallback_analysis(audio_path)`: `loadOutcome` is the whole-file duration
in seconds (`len(audio) / 1000.0`) or the message of a load failure. -/
def fallback_analysis (loadOutcome : Except String ℚ)
    (genderOf : ℚ → ℚ → String) : DiarizationResult :=
  match loadOutcome with
  | .error e => ⟨[], [], some ("fallback analysis failed: " ++ e)⟩
  | .ok total_duration =>
    ⟨[("SPEAKER_00", genderOf 0 total_duration)],
      [⟨"SPEAKER_00", 0, round2 total_duration⟩], none⟩

end SpeakerDiarization

/-! ## detect_gender.py -/

namespace DetectGender

/-- One timeline dict: `type` is `"speech"` or `"pause"`, times in seconds. -/
structure TimelineEntry where
  type : String
  start : ℚ
  stop : ℚ
deriving DecidableEq

/-- The decoded inputs of the try-block: the piptrack output on the loaded
waveform, the `detect_nonsilent` ranges in milliseconds, and `len(audio)`. -/
structure LoadedAudio where
  pitches : List ℚ
  nonsilent : List (ℕ × ℕ)
  totalMs : ℕ

/-- The dict returned by detect_gender.py's `analyze_audio`. -/
structure DGResult where
  gender : String
  timeline : List TimelineEntry
  error : Option String
deriving DecidableEq

/-- Milliseconds to seconds: `x / 1000.0`. -/
def ms (n : ℕ) : ℚ := (n : ℚ) / 1000

/-- The timeline loop with its running `last_end`: a gap before a nonsilent
range becomes a pause, the range itself a speech entry; after the loop a
trailing gap up to `len(audio)` becomes a final pause. -/
def buildTimelineAux : List (ℕ × ℕ) → ℕ → ℕ → List TimelineEntry
  | [], last_end, totalMs =>
    if last_end < totalMs then [⟨"pause", ms last_end, ms totalMs⟩] else []
  | (start_ms, end_ms) :: rest, last_end, totalMs =>
    (if last_end < start_ms then [⟨"pause", ms last_end, ms start_ms⟩] else [])
      ++ ⟨"speech", ms start_ms, ms end_ms⟩ :: buildTimelineAux rest end_ms totalMs

/-- The full timeline construction, starting from `last_end = 0`. -/
def buildTimeline (nonsilent : List (ℕ × ℕ)) (totalMs : ℕ) : List TimelineEntry :=
  buildTimelineAux nonsilent 0 totalMs

/-- detect_gender.py's `analyze_audio(file_path)`: `stages` bundles the
outcomes of the external decode/extraction calls (`.error` modelling any
exception in the try-block, caught and mapped to the error result).  Gender
comes from the mean positive pitch against the 165 Hz threshold, the timeline
from the silence segmentation. -/
def analyze_audio (stages : Except String LoadedAudio) : DGResult :=
  match stages with
  | .error e => ⟨"unknown", [], some e⟩
  | .ok a =>
    let valid_pitches := a.pitches.filter (fun p => 0 < p)
    let gender :=
      if valid_pitches = [] then "unknown"
      else if mean valid_pitches < 165 then "male" else "female"
    ⟨gender, buildTimeline a.nonsilent a.totalMs, none⟩

/-- `TilesFrom a b tl`: the entries of `tl` tile the interval from `a` to `b`
exactly — the first entry starts at `a`, each entry spans forward to where
the next one starts, the last entry ends at `b` (an empty tiling is allowed
only when `a = b`), and every entry is labeled speech or pause. -/
def TilesFrom : ℚ → ℚ → List TimelineEntry → Prop
  | a, b, [] => a = b
  | a, b, t :: rest =>
    t.start = a ∧ t.start ≤ t.stop ∧ (t.type = "speech" ∨ t.type = "pause")
      ∧ TilesFrom t.stop b rest

/-- Validity of the `detect_nonsilent` output (an external collaborator):
ranges are well-formed, sorted, non-overlapping, and contained in
`[lo, hi]` — exactly what pydub guarantees for ranges of an audio of length
`hi` when `lo = 0`. -/
def ChainedRanges : ℕ → List (ℕ × ℕ) → ℕ → Prop
  | lo, [], hi => lo ≤ hi
  | lo, (s, e) :: rest, hi => lo ≤ s ∧ s ≤ e ∧ ChainedRanges e rest hi

end DetectGender

/-! ## Concrete payloads used by witnesses and counterexamples -/

/-- A completed job whose single prediction carries speaker `sp1` and the
provider gender string `Female` (capitalised, outside the canonical
vocabulary). -/
def femaleCapJob : AnalyzeAudio.Job :=
  ⟨some "COMPLETED",
    [⟨[⟨some "sp1", none, some "Female", none, [⟨some 0, some 1, none⟩]⟩]⟩]⟩

/-- A completed job with a single speaker `sp1` of gender `male` and one
chunk from 0 s to 1 s. -/
def oneSpeakerJob : AnalyzeAudio.Job :=
  ⟨some "COMPLETED",
    [⟨[⟨some "sp1", none, some "male", none, [⟨some 0, some 1, none⟩]⟩]⟩]⟩

/-- What `_extract_results` produces on `oneSpeakerJob`. -/
def oneSpeakerExtraction : AnalyzeAudio.Extraction :=
  ⟨[("sp1", "male")], [⟨"sp1", 0, 1, "speech", none⟩]⟩

/-- A prediction payload with two speaker groups `A` and `B`, one entry
each. -/
def twoSpeakerPreds : List HumeAnalyze.PredictResult :=
  [⟨none,
    some ⟨[⟨some ⟨some ⟨some
      [⟨some "A", [⟨some 0, some 1, none, []⟩]⟩,
       ⟨some "B", [⟨some 2, some 3, none, []⟩]⟩]⟩⟩⟩]⟩,
    .null⟩]

/-- A minimal analysis value used by the entry-point witnesses. -/
def emptyAnalysis : HumeAnalyze.Analysis := ⟨none, [], [], "", [], []⟩

/-! ## Helper lemmas -/

/-- A property preserved by every step of a left fold holds of the fold. -/
theorem foldl_preserve {α β : Type} {P : α → Prop} {f : α → β → α}
    (hf : ∀ a b, P a → P (f a b)) : ∀ (l : List β) (a : α), P a → P (l.foldl f a) := by
  intro l
  induction l with
  | nil => intro a ha; exact ha
  | cons x xs ih => intro a ha; exact ih (f a x) (hf a x ha)

/-- `hasKey` is monotone under appending entries on the right. -/
theorem hasKey_append_left {d : List (String × String)} {k : String}
    (h : hasKey d k = true) (l : List (String × String)) : hasKey (d ++ l) k = true := by
  simp only [hasKey, List.any_append, Bool.or_eq_true]
  exact Or.inl (by simpa [hasKey] using h)

/-- The key of a freshly appended entry is present. -/
theorem hasKey_append_self (d : List (String × String)) (k g : String) :
    hasKey (d ++ [(k, g)]) k = true := by
  simp [hasKey, List.any_append]

/-- Nats embed monotonically into seconds. -/
theorem ms_le_ms {a b : ℕ} (h : a ≤ b) : DetectGender.ms a ≤ DetectGender.ms b := by
  have hq : (a : ℚ) ≤ b := by exact_mod_cast h
  unfold DetectGender.ms
  linarith

/-- The timeline loop, started at any `last_end` compatible with the range
list, tiles from `last_end` to the total duration. -/
theorem tilesFrom_buildTimelineAux (rs : List (ℕ × ℕ)) :
    ∀ lo hi : ℕ, DetectGender.ChainedRanges lo rs hi →
      DetectGender.TilesFrom (DetectGender.ms lo) (DetectGender.ms hi)
        (DetectGender.buildTimelineAux rs lo hi) := by
  induction rs with
  | nil =>
    intro lo hi h
    simp only [DetectGender.ChainedRanges] at h
    by_cases hlt : lo < hi
    · have hle := ms_le_ms (le_of_lt hlt)
      simp [DetectGender.buildTimelineAux, hlt, DetectGender.TilesFrom, hle]
    · have heq : lo = hi := le_antisymm h (not_lt.mp hlt)
      subst heq
      simp [DetectGender.buildTimelineAux, DetectGender.TilesFrom]
  | cons p rest ih =>
    obtain ⟨s, e⟩ := p
    intro lo hi h
    obtain ⟨h1, h2, h3⟩ := h
    have hse := ms_le_ms h2
    have hrec := ih e hi h3
    by_cases hlt : lo < s
    · have hps := ms_le_ms (le_of_lt hlt)
      simp [DetectGender.buildTimelineAux, hlt, DetectGender.TilesFrom, hps, hse, hrec]
    · have heq : lo = s := le_antisymm h1 (not_lt.mp hlt)
      subst heq
      simp [DetectGender.buildTimelineAux, hlt, DetectGender.TilesFrom, hse, hrec]

/-- A direct key hit only ever produces a lowered `"male"` or `"female"`. -/
theorem genderFromStr_mf (v : HumeAnalyze.PyVal) (g : String)
    (h : HumeAnalyze.genderFromStr v = some g) : g = "male" ∨ g = "female" := by
  cases v with
  | str s =>
    simp only [HumeAnalyze.genderFromStr] at h
    split at h
    · rename_i hc
      injection h with h0
      subst h0
      simpa [Bool.or_eq_true, beq_iff_eq] using hc
    · cases h
  | num q => simp [HumeAnalyze.genderFromStr] at h
  | boolean b => simp [HumeAnalyze.genderFromStr] at h
  | null => simp [HumeAnalyze.genderFromStr] at h
  | list items => simp [HumeAnalyze.genderFromStr] at h
  | dict entries => simp [HumeAnalyze.genderFromStr] at h

mutual

/-- Whatever `_search_for_gender` finds is `"male"` or `"female"`. -/
theorem search_gender_mf : ∀ (v : HumeAnalyze.PyVal) (g : String),
    HumeAnalyze._search_for_gender v = some g → g = "male" ∨ g = "female"
  | .dict entries, g, h =>
    searchEntries_mf entries g (by simpa [HumeAnalyze._search_for_gender] using h)
  | .list items, g, h =>
    searchItems_mf items g (by simpa [HumeAnalyze._search_for_gender] using h)
  | .str s, _, h => by simp [HumeAnalyze._search_for_gender] at h
  | .num q, _, h => by simp [HumeAnalyze._search_for_gender] at h
  | .boolean b, _, h => by simp [HumeAnalyze._search_for_gender] at h
  | .null, _, h => by simp [HumeAnalyze._search_for_gender] at h

/-- The dict-entry loop only ever finds `"male"` or `"female"`. -/
theorem searchEntries_mf : ∀ (l : List (String × HumeAnalyze.PyVal)) (g : String),
    HumeAnalyze.searchEntries l = some g → g = "male" ∨ g = "female"
  | [], g, h => by simp [HumeAnalyze.searchEntries] at h
  | (k, v) :: rest, g, h => by
    simp only [HumeAnalyze.searchEntries] at h
    split at h
    · rename_i g1 heq
      injection h with h0
      subst h0
      split at heq
      · exact genderFromStr_mf v g1 heq
      · cases heq
    · split at h
      · rename_i g2 heq2
        injection h with h0
        subst h0
        exact search_gender_mf v g2 heq2
      · exact searchEntries_mf rest g h

/-- The list-item loop only ever finds `"male"` or `"female"`. -/
theorem searchItems_mf : ∀ (l : List HumeAnalyze.PyVal) (g : String),
    HumeAnalyze.searchItems l = some g → g = "male" ∨ g = "female"
  | [], g, h => by simp [HumeAnalyze.searchItems] at h
  | v :: rest, g, h => by
    simp only [HumeAnalyze.searchItems] at h
    split at h
    · rename_i g2 heq2
      injection h with h0
      subst h0
      exact search_gender_mf v g2 heq2
    · exact searchItems_mf rest g h

end

/-- Every segment emitted for a prediction's chunks carries that
prediction's speaker id. -/
theorem chunkSegments_speaker (sid : String) (cs : List AnalyzeAudio.Chunk) :
    ∀ s ∈ AnalyzeAudio.chunkSegments sid cs, s.speaker = sid := by
  intro s hs
  simp only [AnalyzeAudio.chunkSegments, List.mem_filterMap] at hs
  obtain ⟨c, _, hc⟩ := hs
  cases hts : c.timeStart with
  | none => rw [hts] at hc; cases hc
  | some t1 =>
    cases hte : c.timeEnd with
    | none => rw [hts, hte] at hc; cases hc
    | some t2 =>
      rw [hts, hte] at hc
      injection hc with h0
      rw [← h0]

/-- One step of the `_extract_results` prediction loop preserves the
invariant that every collected segment's speaker has a speakers entry. -/
theorem addPrediction_step (acc : List (String × String) × List AnalyzeAudio.Segment)
    (p : AnalyzeAudio.Prediction)
    (h : ∀ s ∈ acc.2, hasKey acc.1 s.speaker = true) :
    ∀ s ∈ (AnalyzeAudio.addPrediction acc p).2,
      hasKey (AnalyzeAudio.addPrediction acc p).1 s.speaker = true := by
  intro s hs
  simp only [AnalyzeAudio.addPrediction, List.mem_append] at hs ⊢
  rcases hs with hs | hs
  · have hk := h s hs
    split
    · exact hk
    · exact hasKey_append_left hk _
  · have hsp := chunkSegments_speaker _ _ s hs
    rw [hsp]
    split
    · rename_i hk
      exact hk
    · exact hasKey_append_self _ _ _

/-- The full `_extract_results` collection satisfies the invariant. -/
theorem collectJob_inv (results : List AnalyzeAudio.HumeResult) :
    ∀ s ∈ (AnalyzeAudio.collectJob results).2,
      hasKey (AnalyzeAudio.collectJob results).1 s.speaker = true := by
  unfold AnalyzeAudio.collectJob
  refine foldl_preserve
    (P := fun (acc : List (String × String) × List AnalyzeAudio.Segment) =>
      ∀ s ∈ acc.2, hasKey acc.1 s.speaker = true) ?_ results ([], []) ?_
  · intro acc r hinv
    exact foldl_preserve addPrediction_step r.grouped_predictions acc hinv
  · intro s hs
    simp at hs

/-- One step of the pyannote track loop preserves the same invariant. -/
theorem addTurn_step (g : ℚ → ℚ → String)
    (acc : List (String × String) × List SpeakerDiarization.Segment)
    (t : SpeakerDiarization.Turn)
    (h : ∀ s ∈ acc.2, hasKey acc.1 s.speaker = true) :
    ∀ s ∈ (SpeakerDiarization.addTurn g acc t).2,
      hasKey (SpeakerDiarization.addTurn g acc t).1 s.speaker = true := by
  intro s hs
  simp only [SpeakerDiarization.addTurn, List.mem_append, List.mem_singleton] at hs ⊢
  rcases hs with hs | rfl
  · have hk := h s hs
    split
    · exact hk
    · exact hasKey_append_left hk _
  · split
    · rename_i hk
      exact hk
    · exact hasKey_append_self _ _ _

/-- The pyannote segment list is exactly the turn list in track order, with
bounds rounded to 2 decimals (no sorting happens). -/
theorem pyannote_segments_eq (g : ℚ → ℚ → String) :
    ∀ (turns : List SpeakerDiarization.Turn)
      (acc : List (String × String) × List SpeakerDiarization.Segment),
      (turns.foldl (SpeakerDiarization.addTurn g) acc).2
        = acc.2 ++ turns.map (fun t => ⟨t.speaker, SpeakerDiarization.round2 t.start,
            SpeakerDiarization.round2 t.stop⟩) := by
  intro turns
  induction turns with
  | nil => intro acc; simp
  | cons t rest ih =>
    intro acc
    simp only [List.foldl_cons, List.map_cons]
    rw [ih]
    simp [SpeakerDiarization.addTurn, List.append_assoc]

/-- The segments field of `_collect_analysis`, spelled out: the collected
(or synthesised) list, sorted. -/
theorem collect_segments_eq (preds : List HumeAnalyze.PredictResult) (dur : Option ℚ) :
    (HumeAnalyze._collect_analysis preds dur).segments
      = HumeAnalyze.sortSegments
          (if (preds.foldl HumeAnalyze.processPredictResult HumeAnalyze.initState).segments = []
           then [⟨(preds.foldl HumeAnalyze.processPredictResult
                    HumeAnalyze.initState).first_speaker.getD "speaker_0",
                  0, dur.getD 0, "speech", "", []⟩]
           else (preds.foldl HumeAnalyze.processPredictResult HumeAnalyze.initState).segments) :=
  rfl

/-- Evaluation of `_extract_results` on the one-speaker job. -/
theorem oneSpeakerJob_eval :
    AnalyzeAudio._extract_results oneSpeakerJob = Except.ok oneSpeakerExtraction := by
  norm_num [AnalyzeAudio._extract_results, oneSpeakerJob, oneSpeakerExtraction,
    AnalyzeAudio.collectJob, AnalyzeAudio.addPrediction, AnalyzeAudio.chunkSegments,
    AnalyzeAudio.speakerIdOf, AnalyzeAudio.genderOf, strOr, hasKey,
    AnalyzeAudio.sortSegments, List.insertionSort, List.orderedInsert,
    AnalyzeAudio.round3]
  decide

/-- A transport error at the current status call makes `_poll_job`'s loop
propagate it at once: no retry happens. -/
theorem pollAux_raise (resp : ℕ → AnalyzeAudio.PollResp) (jobId : String) (i fuel : ℕ)
    (now deadline interval : ℚ) (msg : String)
    (hresp : resp i = .raise msg) (hlt : now < deadline) (hfuel : 0 < fuel) :
    AnalyzeAudio.pollAux resp jobId i fuel now deadline interval
      = (.transportError msg, i + 1) := by
  obtain ⟨k, rfl⟩ : ∃ k, fuel = k + 1 := ⟨fuel - 1, by omega⟩
  simp only [AnalyzeAudio.pollAux, if_pos hlt, hresp]

/-- Same for `_wait_for_completion`'s loop: an `ApiError` from
`get_job_details` propagates at once. -/
theorem waitAux_raise (resp : ℕ → HumeAnalyze.JobResp) (i fuel : ℕ)
    (now deadline poll : ℚ) (msg : String)
    (hresp : resp i = .raise msg) (hfuel : 0 < fuel) :
    HumeAnalyze.waitAux resp i fuel now deadline poll = (.apiError msg, i + 1) := by
  obtain ⟨k, rfl⟩ : ∃ k, fuel = k + 1 := ⟨fuel - 1, by omega⟩
  simp only [HumeAnalyze.waitAux, hresp]

/-- Whenever `analyze_audio`'s result carries an error, its speakers and
segments are empty: the `except` handler discards all partial work. -/
theorem analyze_audio_error_empty (envKey : Option String) (ex : Bool)
    (sub : Except String String) (resp : ℕ → AnalyzeAudio.PollResp)
    (h : (AnalyzeAudio.analyze_audio envKey ex sub resp).error.isSome) :
    (AnalyzeAudio.analyze_audio envKey ex sub resp).speakers = []
      ∧ (AnalyzeAudio.analyze_audio envKey ex sub resp).segments = [] := by
  unfold AnalyzeAudio.analyze_audio at h ⊢
  cases henv : AnalyzeAudio._env envKey with
  | error msg => simp [henv]
  | ok k =>
    cases ex with
    | false => simp [henv]
    | true =>
      cases sub with
      | error msg => simp [henv]
      | ok jobId =>
        cases hpoll : (AnalyzeAudio._poll_job resp jobId).1 with
        | completed job =>
          cases hex : AnalyzeAudio._extract_results job with
          | ok exn => simp [henv, hpoll, hex] at h
          | error msg => simp [henv, hpoll, hex]
        | jobFailed msg => simp [henv, hpoll]
        | timedOut msg => simp [henv, hpoll]
        | transportError msg => simp [henv, hpoll]

/-- `_infer_primary_gender` only ever returns one of the three labels. -/
theorem infer_primary_mem (l : List HumeAnalyze.PyVal) :
    HumeAnalyze._infer_primary_gender l = "male"
      ∨ HumeAnalyze._infer_primary_gender l = "female"
      ∨ HumeAnalyze._infer_primary_gender l = "unknown" := by
  induction l with
  | nil => simp [HumeAnalyze._infer_primary_gender]
  | cons s rest ih =>
    simp only [HumeAnalyze._infer_primary_gender]
    cases hs : HumeAnalyze._search_for_gender s with
    | some g =>
      rcases search_gender_mf s g hs with h | h
      · exact Or.inl h
      · exact Or.inr (Or.inl h)
    | none => exact ih

/-! ## Claims -/

/-- C3: for every waveform, the silence-based segmenter's timeline tiles
`[0, duration]` exactly — first entry starts at 0, consecutive entries share
their boundary, the last entry ends at the full duration, and every entry is
labeled speech or pause.  The hypothesis states what pydub's
`detect_nonsilent` (an external collaborator) guarantees about its output:
well-formed, sorted, non-overlapping ranges within the audio. -/
theorem C3_segmenter_tiles (a : DetectGender.LoadedAudio)
    (h : DetectGender.ChainedRanges 0 a.nonsilent a.totalMs) :
    DetectGender.TilesFrom 0 (DetectGender.ms a.totalMs)
      ((DetectGender.analyze_audio (.ok a)).timeline) := by
  have ht := tilesFrom_buildTimelineAux a.nonsilent 0 a.totalMs h
  have hms : DetectGender.ms 0 = 0 := by simp [DetectGender.ms]
  rw [hms] at ht
  have heq : (DetectGender.analyze_audio (.ok a)).timeline
      = DetectGender.buildTimelineAux a.nonsilent 0 a.totalMs := rfl
  rw [heq]
  exact ht

/-- Witness for C3 at a concrete input: one nonsilent range `[500, 2000]` ms
inside a 3000 ms file. -/
theorem C3_segmenter_tiles_witness :
    DetectGender.ChainedRanges 0 [(500, 2000)] 3000
      ∧ DetectGender.TilesFrom 0 (DetectGender.ms 3000)
          ((DetectGender.analyze_audio (.ok ⟨[200], [(500, 2000)], 3000⟩)).timeline) :=
  ⟨by norm_num [DetectGender.ChainedRanges],
    C3_segmenter_tiles ⟨[200], [(500, 2000)], 3000⟩
      (by norm_num [DetectGender.ChainedRanges])⟩

/-- C9 counterexample: a 50 ms slice (800 samples at 16 kHz, below the
claimed ≈100 ms minimum window) for which pitch extraction yields 150 Hz is
classified `"male"`, not `"unknown"` — the classifier has no minimum-window
guard and always attempts pitch extraction. -/
theorem C9_short_input_counterexample :
    SpeakerDiarization.detect_gender_from_pitch 800 16000 (.ok [150]) = "male"
      ∧ ((800 : ℚ) / 16000 < 1 / 10) ∧ "male" ≠ "unknown" := by
  refine ⟨?_, by norm_num, by decide⟩
  have h1 : ([150] : List ℚ).filter (fun p => 0 < p) = [150] := by norm_num [List.filter]
  simp only [SpeakerDiarization.detect_gender_from_pitch, h1]
  norm_num [mean]

/-- C9 (amended): the pitch classifier never inspects the slice length — its
result is the same for any sample count and rate — and it returns
`"unknown"` exactly when pitch extraction raised or yielded no positive
pitch estimate. -/
theorem C9_classifier_ignores_length :
    (∀ n1 r1 n2 r2 po, SpeakerDiarization.detect_gender_from_pitch n1 r1 po
        = SpeakerDiarization.detect_gender_from_pitch n2 r2 po)
    ∧ (∀ n r po, SpeakerDiarization.detect_gender_from_pitch n r po = "unknown"
        ↔ (∃ m, po = .error m)
          ∨ (∃ ps, po = .ok ps ∧ ps.filter (fun p => 0 < p) = [])) := by
  constructor
  · intro n1 r1 n2 r2 po
    cases po <;> rfl
  · intro n r po
    cases po with
    | error m => simp [SpeakerDiarization.detect_gender_from_pitch]
    | ok ps =>
      simp only [SpeakerDiarization.detect_gender_from_pitch]
      by_cases hf : ps.filter (fun p => 0 < p) = []
      · rw [if_pos hf]
        exact iff_of_true rfl (Or.inr ⟨ps, rfl, hf⟩)
      · rw [if_neg hf]
        have hlhs : (if mean (ps.filter (fun p => 0 < p)) < 165 then "male" else "female")
            ≠ "unknown" := by
          split
          · decide
          · decide
        refine iff_of_false hlhs ?_
        rintro (⟨m, hm⟩ | ⟨ps', hps', hfil⟩)
        · cases hm
        · injection hps' with hps
          subst hps
          exact hf hfil

/-- C2 counterexample: on a payload with two speaker groups `A` and `B`,
`_collect_analysis` emits segments for both speakers but records only the
primary speaker `A` in `speakers`, so the segment with speaker `B` has no
matching entry. -/
theorem C2_missing_speaker_counterexample :
    ¬ (∀ s ∈ (HumeAnalyze._collect_analysis twoSpeakerPreds (some 10)).segments,
        hasKey (HumeAnalyze._collect_analysis twoSpeakerPreds (some 10)).speakers
          s.speaker = true) := by
  intro h
  have hseg : (HumeAnalyze._collect_analysis twoSpeakerPreds (some 10)).segments
      = [⟨"A", 0, 1, "speech", "", []⟩, ⟨"B", 2, 3, "speech", "", []⟩] := by
    norm_num [HumeAnalyze._collect_analysis, twoSpeakerPreds, HumeAnalyze.initState,
      HumeAnalyze.processPredictResult, HumeAnalyze.processInnerPrediction,
      HumeAnalyze.processGroup, HumeAnalyze.processEntry, truthyStr, strOr,
      HumeAnalyze.sortSegments, List.insertionSort, List.orderedInsert,
      HumeAnalyze.segLE]
    decide
  have hspk : (HumeAnalyze._collect_analysis twoSpeakerPreds (some 10)).speakers
      = [("A", "unknown")] := by
    norm_num [HumeAnalyze._collect_analysis, twoSpeakerPreds, HumeAnalyze.initState,
      HumeAnalyze.processPredictResult, HumeAnalyze.processInnerPrediction,
      HumeAnalyze.processGroup, HumeAnalyze.processEntry, truthyStr, strOr,
      HumeAnalyze._infer_primary_gender, HumeAnalyze._search_for_gender]
    decide
  have hb := h ⟨"B", 2, 3, "speech", "", []⟩ (by rw [hseg]; simp)
  rw [hspk] at hb
  simp [hasKey] at hb

/-- C2 (amended): every speaker id occurring in `segments` has a `speakers`
entry for results of analyze_audio.py's `_extract_results` and of
speaker_diarization.py's `analyze_with_pyannote`; hume_analyze.py's
`_collect_analysis`, however, always records exactly one `speakers` entry
(the primary speaker), so segments of further speakers have no entry. -/
theorem C2_speakers_cover_segments :
    (∀ (job : AnalyzeAudio.Job) (out : AnalyzeAudio.Extraction),
        AnalyzeAudio._extract_results job = Except.ok out →
        ∀ s ∈ out.segments, hasKey out.speakers s.speaker = true)
    ∧ (∀ (turns : List SpeakerDiarization.Turn) (g : ℚ → ℚ → String),
        ∀ s ∈ (SpeakerDiarization.analyze_with_pyannote (.ok turns) g).segments,
          hasKey (SpeakerDiarization.analyze_with_pyannote (.ok turns) g).speakers
            s.speaker = true)
    ∧ (∀ (preds : List HumeAnalyze.PredictResult) (dur : Option ℚ),
        ∃ p gen, (HumeAnalyze._collect_analysis preds dur).speakers = [(p, gen)]) := by
  refine ⟨?_, ?_, ?_⟩
  · intro job out hok
    simp only [AnalyzeAudio._extract_results] at hok
    split at hok
    · cases hok
    · injection hok with h0
      subst h0
      intro s hs
      have hmem : s ∈ (AnalyzeAudio.collectJob job.results).2 := by
        simpa [AnalyzeAudio.sortSegments] using hs
      exact collectJob_inv job.results s hmem
  · intro turns g
    have hfold := foldl_preserve
      (P := fun (acc : List (String × String) × List SpeakerDiarization.Segment) =>
        ∀ s ∈ acc.2, hasKey acc.1 s.speaker = true)
      (addTurn_step g) turns ([], []) (by intro s hs; simp at hs)
    intro s hs
    exact hfold s hs
  · intro preds dur
    exact ⟨_, _, rfl⟩

/-- Witness for C2 at a concrete input: the one-speaker job. -/
theorem C2_speakers_cover_segments_witness :
    AnalyzeAudio._extract_results oneSpeakerJob = Except.ok oneSpeakerExtraction
      ∧ ∀ s ∈ oneSpeakerExtraction.segments,
          hasKey oneSpeakerExtraction.speakers s.speaker = true :=
  ⟨oneSpeakerJob_eval,
    C2_speakers_cover_segments.1 oneSpeakerJob oneSpeakerExtraction oneSpeakerJob_eval⟩

/-- C4 counterexample: when the diarization collaborator yields turns out of
start order, `analyze_with_pyannote` returns them unsorted — there is no
final sort on this code path. -/
theorem C4_unsorted_pyannote_counterexample :
    ¬ List.Sorted SpeakerDiarization.segLE
      ((SpeakerDiarization.analyze_with_pyannote
        (.ok [⟨"A", 2, 3⟩, ⟨"B", 0, 1⟩]) (fun _ _ => "unknown")).segments) := by
  intro h
  have hseg : (SpeakerDiarization.analyze_with_pyannote
      (.ok [⟨"A", 2, 3⟩, ⟨"B", 0, 1⟩]) (fun _ _ => "unknown")).segments
      = [⟨"A", 2, 3⟩, ⟨"B", 0, 1⟩] := by
    norm_num [SpeakerDiarization.analyze_with_pyannote, SpeakerDiarization.addTurn,
      hasKey, SpeakerDiarization.round2]
  rw [hseg] at h
  have hle := (List.sorted_cons.mp h).1 ⟨"B", 0, 1⟩ (by simp)
  simp only [SpeakerDiarization.segLE] at hle
  norm_num at hle

/-- C4 (amended): `_extract_results` and `_collect_analysis` stable-sort
their segments by start as the final step; `analyze_with_pyannote` performs
no sort — its segments are exactly the diarization turns in track order
(rounded), hence sorted only when the external pipeline yields them sorted. -/
theorem C4_segments_sorted :
    (∀ (job : AnalyzeAudio.Job) (out : AnalyzeAudio.Extraction),
        AnalyzeAudio._extract_results job = Except.ok out →
        List.Sorted AnalyzeAudio.segLE out.segments)
    ∧ (∀ (preds : List HumeAnalyze.PredictResult) (dur : Option ℚ),
        List.Sorted HumeAnalyze.segLE ((HumeAnalyze._collect_analysis preds dur).segments))
    ∧ (∀ (turns : List SpeakerDiarization.Turn) (g : ℚ → ℚ → String),
        (SpeakerDiarization.analyze_with_pyannote (.ok turns) g).segments
          = turns.map (fun t => ⟨t.speaker, SpeakerDiarization.round2 t.start,
              SpeakerDiarization.round2 t.stop⟩)) := by
  refine ⟨?_, ?_, ?_⟩
  · intro job out hok
    simp only [AnalyzeAudio._extract_results] at hok
    split at hok
    · cases hok
    · injection hok with h0
      subst h0
      exact List.sorted_insertionSort AnalyzeAudio.segLE _
  · intro preds dur
    rw [collect_segments_eq]
    exact List.sorted_insertionSort HumeAnalyze.segLE _
  · intro turns g
    have := pyannote_segments_eq g turns ([], [])
    simpa [SpeakerDiarization.analyze_with_pyannote] using this

/-- Witness for C4 at a concrete input: the one-speaker job. -/
theorem C4_segments_sorted_witness :
    AnalyzeAudio._extract_results oneSpeakerJob = Except.ok oneSpeakerExtraction
      ∧ List.Sorted AnalyzeAudio.segLE oneSpeakerExtraction.segments :=
  ⟨oneSpeakerJob_eval,
    C4_segments_sorted.1 oneSpeakerJob oneSpeakerExtraction oneSpeakerJob_eval⟩

/-- C7 counterexample: with no extracted segments and a known 5 s duration,
the synthesised whole-file segment carries speaker `"speaker_0"`, not
`"unknown"` as the claim states. -/
theorem C7_placeholder_speaker_counterexample :
    (HumeAnalyze._collect_analysis [] (some 5)).segments
        = [⟨"speaker_0", 0, 5, "speech", "", []⟩]
      ∧ "speaker_0" ≠ "unknown" := by
  constructor
  · norm_num [HumeAnalyze._collect_analysis, HumeAnalyze.initState, strOr,
      HumeAnalyze.sortSegments, List.insertionSort, List.orderedInsert]
  · decide

/-- C7 (amended): when extraction yields zero segments, `_collect_analysis`
emits exactly one speech segment spanning from 0 to the known duration, with
speaker `first_speaker or "speaker_0"` (the first encountered group id, or
`"speaker_0"` when none was seen) rather than `"unknown"`; the placeholder
is emitted whether or not a duration is known (with end 0.0 when unknown). -/
theorem C7_placeholder_segment (preds : List HumeAnalyze.PredictResult) (d : ℚ)
    (h : (preds.foldl HumeAnalyze.processPredictResult HumeAnalyze.initState).segments = []) :
    (HumeAnalyze._collect_analysis preds (some d)).segments
      = [⟨(preds.foldl HumeAnalyze.processPredictResult
            HumeAnalyze.initState).first_speaker.getD "speaker_0",
          0, d, "speech", "", []⟩] := by
  rw [collect_segments_eq, if_pos h]
  simp [HumeAnalyze.sortSegments, List.insertionSort, List.orderedInsert]

/-- Witness for C7 at a concrete input: no predictions, duration 5 s. -/
theorem C7_placeholder_segment_witness :
    (([] : List HumeAnalyze.PredictResult).foldl HumeAnalyze.processPredictResult
        HumeAnalyze.initState).segments = []
      ∧ (HumeAnalyze._collect_analysis [] (some 5)).segments
        = [⟨"speaker_0", 0, 5, "speech", "", []⟩] :=
  ⟨rfl, C7_placeholder_segment [] 5 rfl⟩

/-- C8 counterexample: a provider payload carrying the gender string
`"Female"` is stored verbatim by analyze_audio.py's `_extract_results`, so
the speakers mapping contains a gender outside `male`/`female`/`unknown`. -/
theorem C8_gender_passthrough_counterexample :
    AnalyzeAudio._extract_results femaleCapJob
        = Except.ok ⟨[("sp1", "Female")], [⟨"sp1", 0, 1, "speech", none⟩]⟩
      ∧ "Female" ∉ (["male", "female", "unknown"] : List String) := by
  constructor
  · norm_num [AnalyzeAudio._extract_results, femaleCapJob, AnalyzeAudio.collectJob,
      AnalyzeAudio.addPrediction, AnalyzeAudio.chunkSegments, AnalyzeAudio.speakerIdOf,
      AnalyzeAudio.genderOf, strOr, hasKey, AnalyzeAudio.sortSegments,
      List.insertionSort, List.orderedInsert, AnalyzeAudio.round3]
    decide
  · decide

/-- C8 (amended): for hume_analyze.py's normalizer and for the local pitch
classifiers, every gender is one of `male`/`female`/`unknown`;
analyze_audio.py's `_extract_results`, in contrast, passes the provider's
gender string through verbatim (defaulting to `"unknown"` only when the
field is absent or empty). -/
theorem C8_gender_vocabulary :
    (∀ (preds : List HumeAnalyze.PredictResult) (dur : Option ℚ),
        ((HumeAnalyze._collect_analysis preds dur).speakers).all
          (fun kv => kv.2 == "male" || kv.2 == "female" || kv.2 == "unknown") = true)
    ∧ (∀ (n r : ℕ) (po : Except String (List ℚ)),
        SpeakerDiarization.detect_gender_from_pitch n r po = "male"
          ∨ SpeakerDiarization.detect_gender_from_pitch n r po = "female"
          ∨ SpeakerDiarization.detect_gender_from_pitch n r po = "unknown")
    ∧ (∀ stages : Except String DetectGender.LoadedAudio,
        (DetectGender.analyze_audio stages).gender = "male"
          ∨ (DetectGender.analyze_audio stages).gender = "female"
          ∨ (DetectGender.analyze_audio stages).gender = "unknown") := by
  refine ⟨?_, ?_, ?_⟩
  · intro preds dur
    have h := infer_primary_mem (preds.map (fun r => r.dump))
    simp only [HumeAnalyze._collect_analysis, List.all_cons, List.all_nil, Bool.and_true]
    rcases h with h | h | h <;> simp [h]
  · intro n r po
    cases po with
    | error m => simp [SpeakerDiarization.detect_gender_from_pitch]
    | ok ps =>
      simp only [SpeakerDiarization.detect_gender_from_pitch]
      split
      · exact Or.inr (Or.inr rfl)
      · split
        · exact Or.inl rfl
        · exact Or.inr (Or.inl rfl)
  · intro stages
    cases stages with
    | error m => simp [DetectGender.analyze_audio]
    | ok a =>
      simp only [DetectGender.analyze_audio]
      split
      · exact Or.inr (Or.inr rfl)
      · split
        · exact Or.inl rfl
        · exact Or.inr (Or.inl rfl)

/-- C1 counterexample: hume_analyze.py's `main` exits with code 2 when
`_run` raises an `AnalysisError` — a non-zero exit code for an
analysis-time failure, not a usage error. -/
theorem C1_exit_code_counterexample :
    (HumeAnalyze.main ["hume_analyze.py", "clip.wav"] true
        (.analysisError "Hume job failed: decoder error")).1 = 2
      ∧ (2 : ℕ) ≠ 0 := by
  exact ⟨rfl, by decide⟩

/-- C1 (amended): analyze_audio.py's entry point matches the claim — its
`analyze_audio` converts every caught exception into a result with empty
speakers/segments and a populated error, and its `__main__` exits non-zero
exactly for a missing argument.  hume_analyze.py's `main` also catches every
exception from `_run` and prints a JSON error payload, but it exits with the
non-zero codes 2/3/4 for analysis-time failures, not only for usage errors. -/
theorem C1_error_containment :
    (∀ (argv : List String) (envKey : Option String) (ex : Bool)
        (sub : Except String String) (resp : ℕ → AnalyzeAudio.PollResp),
        (AnalyzeAudio.analyze_audio_main argv envKey ex sub resp).1 ≠ 0
          ↔ argv.length < 2)
    ∧ (∀ (envKey : Option String) (ex : Bool) (sub : Except String String)
        (resp : ℕ → AnalyzeAudio.PollResp),
        (AnalyzeAudio.analyze_audio envKey ex sub resp).error.isSome →
          (AnalyzeAudio.analyze_audio envKey ex sub resp).speakers = []
            ∧ (AnalyzeAudio.analyze_audio envKey ex sub resp).segments = [])
    ∧ (∀ (argv : List String) (m : String), argv.length = 2 →
        HumeAnalyze.main argv true (.analysisError m) = (2, .errorPayload m))
    ∧ (∀ (argv : List String) (m : String), argv.length = 2 →
        HumeAnalyze.main argv true (.apiError m) = (3, .errorPayload "Hume API error"))
    ∧ (∀ (argv : List String) (m : String), argv.length = 2 →
        HumeAnalyze.main argv true (.other m) = (4, .errorPayload "Unexpected failure"))
    ∧ (∀ (argv : List String) (a : HumeAnalyze.Analysis), argv.length = 2 →
        HumeAnalyze.main argv true (.ok a) = (0, .analysisPayload a)) := by
  refine ⟨?_, ?_, ?_, ?_, ?_, ?_⟩
  · intro argv envKey ex sub resp
    by_cases h2 : argv.length < 2 <;>
      simp [AnalyzeAudio.analyze_audio_main, h2]
  · intro envKey ex sub resp h
    exact analyze_audio_error_empty envKey ex sub resp h
  · intro argv m h2
    simp [HumeAnalyze.main, h2]
  · intro argv m h2
    simp [HumeAnalyze.main, h2]
  · intro argv m h2
    simp [HumeAnalyze.main, h2]
  · intro argv a h2
    simp [HumeAnalyze.main, h2]

/-- Witness for C1 at concrete inputs: an empty argv for the usage check, a
missing environment variable for the conversion check, and each `_run`
outcome for the hume entry point. -/
theorem C1_error_containment_witness :
    ((AnalyzeAudio.analyze_audio_main [] none true (.ok "j")
          (fun _ => .raise "x")).1 ≠ 0 ↔ ([] : List String).length < 2)
      ∧ ((AnalyzeAudio.analyze_audio none true (.ok "j") (fun _ => .raise "x")).speakers = []
          ∧ (AnalyzeAudio.analyze_audio none true (.ok "j") (fun _ => .raise "x")).segments = [])
      ∧ HumeAnalyze.main ["hume_analyze.py", "a.wav"] true (.analysisError "boom")
          = (2, .errorPayload "boom")
      ∧ HumeAnalyze.main ["hume_analyze.py", "a.wav"] true (.apiError "bad")
          = (3, .errorPayload "Hume API error")
      ∧ HumeAnalyze.main ["hume_analyze.py", "a.wav"] true (.other "oops")
          = (4, .errorPayload "Unexpected failure")
      ∧ HumeAnalyze.main ["hume_analyze.py", "a.wav"] true (.ok emptyAnalysis)
          = (0, .analysisPayload emptyAnalysis) :=
  ⟨C1_error_containment.1 [] none true (.ok "j") (fun _ => .raise "x"),
    C1_error_containment.2.1 none true (.ok "j") (fun _ => .raise "x") rfl,
    C1_error_containment.2.2.1 ["hume_analyze.py", "a.wav"] "boom" rfl,
    C1_error_containment.2.2.2.1 ["hume_analyze.py", "a.wav"] "bad" rfl,
    C1_error_containment.2.2.2.2.1 ["hume_analyze.py", "a.wav"] "oops" rfl,
    C1_error_containment.2.2.2.2.2 ["hume_analyze.py", "a.wav"] emptyAnalysis rfl⟩

/-- C5 counterexample: a job that reports CANCELED on every poll does not
make `_wait_for_completion` fail immediately with the job-failure error —
with timeout 2 s and poll interval 1 s it performs three status calls and
ends in the timeout error instead. -/
theorem C5_canceled_ignored_counterexample :
    HumeAnalyze._wait_for_completion (fun _ => .ok "CANCELED" none) 2 1
      = (.timedOut "Timed out waiting for Hume job to complete", 3) := by
  have hf : HumeAnalyze.wait_fuel 2 1 = 4 := by
    norm_num [HumeAnalyze.wait_fuel]
    decide
  unfold HumeAnalyze._wait_for_completion
  rw [hf]
  have h1 : ∀ (i fuel : ℕ) (now : ℚ), now < 2 →
      HumeAnalyze.waitAux (fun _ => .ok "CANCELED" none) i (fuel + 1) now 2 1
        = HumeAnalyze.waitAux (fun _ => .ok "CANCELED" none) (i + 1) fuel (now + 1) 2 1 := by
    intro i fuel now hlt
    simp only [HumeAnalyze.waitAux]
    rw [if_neg (by decide : ¬ (strToUpper "CANCELED" = "COMPLETED")),
      if_neg (by decide : ¬ (strToUpper "CANCELED" = "FAILED")),
      if_neg (not_le.mpr hlt)]
  have h4 : ∀ (i fuel : ℕ) (now : ℚ), 2 ≤ now →
      HumeAnalyze.waitAux (fun _ => .ok "CANCELED" none) i (fuel + 1) now 2 1
        = (.timedOut "Timed out waiting for Hume job to complete", i + 1) := by
    intro i fuel now hge
    simp only [HumeAnalyze.waitAux]
    rw [if_neg (by decide : ¬ (strToUpper "CANCELED" = "COMPLETED")),
      if_neg (by decide : ¬ (strToUpper "CANCELED" = "FAILED")),
      if_pos hge]
  rw [show (4 : ℕ) = 3 + 1 from rfl, h1 0 3 0 (by norm_num)]
  rw [show (3 : ℕ) = 2 + 1 from rfl, h1 (0 + 1) 2 (0 + 1) (by norm_num)]
  rw [show (2 : ℕ) = 1 + 1 from rfl, h4 (0 + 1 + 1) 1 (0 + 1 + 1) (by norm_num)]

/-- C5 (amended): analyze_audio.py's `_poll_job` fails immediately, after
exactly one status call, when the reported status is FAILED or CANCELED;
hume_analyze.py's `_wait_for_completion` does so only for FAILED — a
CANCELED status matches no terminal check, so that loop keeps polling until
its deadline and then fails with the timeout error. -/
theorem C5_terminal_status :
    (∀ (resp : ℕ → AnalyzeAudio.PollResp) (jobId : String) (i fuel : ℕ)
        (now deadline interval : ℚ) (job : AnalyzeAudio.Job),
        resp i = .ok job →
        (job.status = some "FAILED" ∨ job.status = some "CANCELED") →
        now < deadline → 0 < fuel →
        AnalyzeAudio.pollAux resp jobId i fuel now deadline interval
          = (.jobFailed ("Hume job " ++ jobId ++ " failed"), i + 1))
    ∧ (∀ (resp : ℕ → HumeAnalyze.JobResp) (i fuel : ℕ) (now deadline poll : ℚ)
        (st : String) (m : Option String),
        resp i = .ok st m → strToUpper st = "FAILED" → 0 < fuel →
        HumeAnalyze.waitAux resp i fuel now deadline poll
          = (.jobFailed ("Hume job failed: " ++ m.getD "Unknown failure"), i + 1))
    ∧ (∀ (resp : ℕ → HumeAnalyze.JobResp) (i fuel : ℕ) (now deadline poll : ℚ)
        (st : String) (m : Option String),
        resp i = .ok st m → strToUpper st ≠ "COMPLETED" → strToUpper st ≠ "FAILED" →
        now < deadline →
        HumeAnalyze.waitAux resp i (fuel + 1) now deadline poll
          = HumeAnalyze.waitAux resp (i + 1) fuel (now + poll) deadline poll) := by
  refine ⟨?_, ?_, ?_⟩
  · intro resp jobId i fuel now deadline interval job hresp hstat hlt hfuel
    obtain ⟨k, rfl⟩ : ∃ k, fuel = k + 1 := ⟨fuel - 1, by omega⟩
    have hstep : AnalyzeAudio.pollAux resp jobId i (k + 1) now deadline interval
        = if job.status = some "COMPLETED" then (.completed job, i + 1)
          else if job.status = some "FAILED" ∨ job.status = some "CANCELED" then
            (.jobFailed ("Hume job " ++ jobId ++ " failed"), i + 1)
          else AnalyzeAudio.pollAux resp jobId (i + 1) k (now + interval) deadline interval := by
      simp only [AnalyzeAudio.pollAux, if_pos hlt, hresp]
    rw [hstep]
    rcases hstat with h | h
    · rw [h, if_neg (by decide : ¬ ((some "FAILED" : Option String) = some "COMPLETED")),
        if_pos (Or.inl rfl)]
    · rw [h, if_neg (by decide : ¬ ((some "CANCELED" : Option String) = some "COMPLETED")),
        if_pos (Or.inr rfl)]
  · intro resp i fuel now deadline poll st m hresp hst hfuel
    obtain ⟨k, rfl⟩ : ∃ k, fuel = k + 1 := ⟨fuel - 1, by omega⟩
    have hstep : HumeAnalyze.waitAux resp i (k + 1) now deadline poll
        = if strToUpper st = "COMPLETED" then (.completed, i + 1)
          else if strToUpper st = "FAILED" then
            (.jobFailed ("Hume job failed: " ++ m.getD "Unknown failure"), i + 1)
          else if deadline ≤ now then
            (.timedOut "Timed out waiting for Hume job to complete", i + 1)
          else HumeAnalyze.waitAux resp (i + 1) k (now + poll) deadline poll := by
      simp only [HumeAnalyze.waitAux, hresp]
    rw [hstep, hst, if_neg (by decide : ¬ (("FAILED" : String) = "COMPLETED")), if_pos rfl]
  · intro resp i fuel now deadline poll st m hresp hne1 hne2 hlt
    have hstep : HumeAnalyze.waitAux resp i (fuel + 1) now deadline poll
        = if strToUpper st = "COMPLETED" then (.completed, i + 1)
          else if strToUpper st = "FAILED" then
            (.jobFailed ("Hume job failed: " ++ m.getD "Unknown failure"), i + 1)
          else if deadline ≤ now then
            (.timedOut "Timed out waiting for Hume job to complete", i + 1)
          else HumeAnalyze.waitAux resp (i + 1) fuel (now + poll) deadline poll := by
      simp only [HumeAnalyze.waitAux, hresp]
    rw [hstep, if_neg hne1, if_neg hne2, if_neg (not_le.mpr hlt)]

/-- Witness for C5 at concrete inputs: a FAILED first poll for both loops,
and a CANCELED poll that merely advances the hume loop. -/
theorem C5_terminal_status_witness :
    AnalyzeAudio.pollAux (fun _ => .ok ⟨some "FAILED", []⟩) "j1" 0 1 0 10 5
        = (.jobFailed ("Hume job " ++ "j1" ++ " failed"), 0 + 1)
      ∧ HumeAnalyze.waitAux (fun _ => .ok "FAILED" (some "boom")) 0 1 0 10 2
        = (.jobFailed ("Hume job failed: " ++ (some "boom").getD "Unknown failure"), 0 + 1)
      ∧ HumeAnalyze.waitAux (fun _ => .ok "CANCELED" none) 0 (2 + 1) 0 10 2
        = HumeAnalyze.waitAux (fun _ => .ok "CANCELED" none) (0 + 1) 2 (0 + 2) 10 2 :=
  ⟨C5_terminal_status.1 (fun _ => .ok ⟨some "FAILED", []⟩) "j1" 0 1 0 10 5
      ⟨some "FAILED", []⟩ rfl (Or.inl rfl) (by norm_num) (by norm_num),
    C5_terminal_status.2.1 (fun _ => .ok "FAILED" (some "boom")) 0 1 0 10 2
      "FAILED" (some "boom") rfl (by decide) (by norm_num),
    C5_terminal_status.2.2 (fun _ => .ok "CANCELED" none) 0 2 0 10 2
      "CANCELED" none rfl (by decide) (by decide) (by norm_num)⟩

/-- C6 counterexample: a transport error on the very first status call
aborts `_poll_job` at once with one status call performed — even though the
next response would have reported COMPLETED and the deadline is far away. -/
theorem C6_no_retry_counterexample :
    AnalyzeAudio._poll_job
        (fun n => if n = 0 then .raise "connection reset"
                  else .ok ⟨some "COMPLETED", []⟩) "job1"
      = (.transportError "connection reset", 1) := by
  unfold AnalyzeAudio._poll_job
  exact pollAux_raise _ "job1" 0 181 0 _ _ "connection reset" rfl
    (by norm_num [AnalyzeAudio.POLL_TIMEOUT_SECONDS]) (by norm_num)

/-- C6 (amended): a transport error raised by a status call is not retried:
both polling loops propagate it immediately, aborting the run at that poll;
in analyze_audio.py the exception is then caught by `analyze_audio`'s
top-level handler and converted into the error result. -/
theorem C6_transport_error_aborts :
    (∀ (resp : ℕ → AnalyzeAudio.PollResp) (jobId : String) (i fuel : ℕ)
        (now deadline interval : ℚ) (msg : String),
        resp i = .raise msg → now < deadline → 0 < fuel →
        AnalyzeAudio.pollAux resp jobId i fuel now deadline interval
          = (.transportError msg, i + 1))
    ∧ (∀ (resp : ℕ → HumeAnalyze.JobResp) (i fuel : ℕ) (now deadline poll : ℚ)
        (msg : String),
        resp i = .raise msg → 0 < fuel →
        HumeAnalyze.waitAux resp i fuel now deadline poll = (.apiError msg, i + 1))
    ∧ (∀ (resp : ℕ → AnalyzeAudio.PollResp) (msg : String),
        resp 0 = .raise msg →
        AnalyzeAudio.analyze_audio (some "key") true (.ok "jobX") resp
          = ⟨[], [], some msg, some "jobX"⟩) := by
  refine ⟨?_, ?_, ?_⟩
  · intro resp jobId i fuel now deadline interval msg hresp hlt hfuel
    exact pollAux_raise resp jobId i fuel now deadline interval msg hresp hlt hfuel
  · intro resp i fuel now deadline poll msg hresp hfuel
    exact waitAux_raise resp i fuel now deadline poll msg hresp hfuel
  · intro resp msg hresp
    have henv : AnalyzeAudio._env (some "key") = .ok "key" := by
      simp only [AnalyzeAudio._env]
      rw [if_neg (by decide : ¬ (("key" : String) = ""))]
    have hpoll : AnalyzeAudio._poll_job resp "jobX" = (.transportError msg, 1) :=
      pollAux_raise resp "jobX" 0 181 0 AnalyzeAudio.POLL_TIMEOUT_SECONDS
        AnalyzeAudio.POLL_INTERVAL_SECONDS msg hresp
        (by norm_num [AnalyzeAudio.POLL_TIMEOUT_SECONDS]) (by norm_num)
    simp only [AnalyzeAudio.analyze_audio, henv, AnalyzeAudio._poll_job] at *
    simp [hpoll]

/-- Witness for C6 at a concrete input: a failing first status call with the
deadline far away. -/
theorem C6_transport_error_aborts_witness :
    AnalyzeAudio.pollAux (fun _ => .raise "reset") "j2" 0 1 0 10 5
        = (.transportError "reset", 0 + 1)
      ∧ HumeAnalyze.waitAux (fun _ => .raise "reset") 0 1 0 10 2
        = (.apiError "reset", 0 + 1)
      ∧ AnalyzeAudio.analyze_audio (some "key") true (.ok "jobX") (fun _ => .raise "reset")
        = ⟨[], [], some "reset", some "jobX"⟩ :=
  ⟨C6_transport_error_aborts.1 (fun _ => .raise "reset") "j2" 0 1 0 10 5 "reset"
      rfl (by norm_num) (by norm_num),
    C6_transport_error_aborts.2.1 (fun _ => .raise "reset") 0 1 0 10 2 "reset"
      rfl (by norm_num),
    C6_transport_error_aborts.2.2 (fun _ => .raise "reset") "reset" rfl⟩

/-- C10: every error result produced by a catch-all handler carries empty
data: analyze_audio.py's `analyze_audio` returns empty speakers and
segments whenever its result carries an error, and the except branches of
`analyze_with_pyannote`, `fallback_analysis` and detect_gender.py's
`analyze_audio` return literally empty speakers/segments/timeline — partial
extraction work is always discarded on error. -/
theorem C10_error_results_empty :
    (∀ (envKey : Option String) (ex : Bool) (sub : Except String String)
        (resp : ℕ → AnalyzeAudio.PollResp) (m : String),
        (AnalyzeAudio.analyze_audio envKey ex sub resp).error = some m →
          (AnalyzeAudio.analyze_audio envKey ex sub resp).speakers = []
            ∧ (AnalyzeAudio.analyze_audio envKey ex sub resp).segments = [])
    ∧ (∀ (e : String) (g : ℚ → ℚ → String),
        SpeakerDiarization.analyze_with_pyannote (.error e) g
          = ⟨[], [], some ("pyannote analysis failed: " ++ e)⟩)
    ∧ (∀ (e : String) (g : ℚ → ℚ → String),
        SpeakerDiarization.fallback_analysis (.error e) g
          = ⟨[], [], some ("fallback analysis failed: " ++ e)⟩)
    ∧ (∀ e : String, DetectGender.analyze_audio (.error e) = ⟨"unknown", [], some e⟩) := by
  refine ⟨?_, ?_, ?_, ?_⟩
  · intro envKey ex sub resp m hm
    exact analyze_audio_error_empty envKey ex sub resp (by rw [hm]; rfl)
  · intro e g
    rfl
  · intro e g
    rfl
  · intro e
    rfl

/-- Witness for C10 at concrete inputs: a missing API key for the first
part, and concrete raised messages for the others. -/
theorem C10_error_results_empty_witness :
    ((AnalyzeAudio.analyze_audio none true (.error "net down")
          (fun _ => .raise "x")).speakers = []
        ∧ (AnalyzeAudio.analyze_audio none true (.error "net down")
            (fun _ => .raise "x")).segments = [])
      ∧ SpeakerDiarization.analyze_with_pyannote (.error "io") (fun _ _ => "unknown")
          = ⟨[], [], some ("pyannote analysis failed: " ++ "io")⟩
      ∧ SpeakerDiarization.fallback_analysis (.error "io") (fun _ _ => "unknown")
          = ⟨[], [], some ("fallback analysis failed: " ++ "io")⟩
      ∧ DetectGender.analyze_audio (.error "io") = ⟨"unknown", [], some "io"⟩ :=
  ⟨C10_error_results_empty.1 none true (.error "net down") (fun _ => .raise "x")
      "Missing required environment variable: HUME_API_KEY" rfl,
    C10_error_results_empty.2.1 "io" (fun _ _ => "unknown"),
    C10_error_results_empty.2.2.1 "io" (fun _ _ => "unknown"),
    C10_error_results_empty.2.2.2 "io"⟩

end Spec2Proof
